import Mathlib

/-!
ImageConverter: a shallow embedding of the React component `App` of
`src/App.jsx` as a state machine.

* The six `useState` cells become the record `State`.
* Every event handler becomes a pure function from the state of the render
  that created it to the next state, together with the list of host calls
  (`Effect`) it made, in program order.
* The host platform (FileReader, Image decoder, canvas encoder, object URLs)
  is not part of the repository.  Values it hands back are represented as
  terms that record what they were made from (`DataUrl`, `Image`, `Blob`,
  `ObjectUrl`), so provenance can be stated.  Which callback the host fires,
  and with what outcome, is an input of the model (`Event`).
* `quality` is a JavaScript number that the component only stores and passes
  on; it is carried as a rational.
-/

namespace ImageConverter

/-! ## Host values -/

/-- A `File` object as delivered by a file input or a drop: its name, its
declared media type (`file.type`) and its bytes. -/
structure File where
  name : String
  type : String
  bytes : List Nat
  deriving DecidableEq, Repr

/-- The string `reader.result` of a successful `readAsDataURL(file)`: the
data-URI representation of the bytes of `file`. -/
structure DataUrl where
  file : File
  deriving DecidableEq, Repr

/-- A decoded `HTMLImageElement`: the `src` it was given and its intrinsic
width and height. -/
structure Image where
  src : Option DataUrl
  width : Nat
  height : Nat
  deriving DecidableEq, Repr

/-- A canvas element: its `width` and `height` attributes and the image drawn
at the origin by `ctx.drawImage(img, 0, 0)`. -/
structure Canvas where
  width : Nat
  height : Nat
  drawn : Option Image
  deriving DecidableEq, Repr

/-- The arguments of one `canvas.toBlob(callback, mimeType, qualityOption)`
call; `qualityOption = none` stands for JavaScript `null`. -/
structure EncodeJob where
  canvas : Canvas
  mimeType : String
  qualityOption : Option Rat
  deriving DecidableEq

/-- A non-null `Blob` delivered to the `toBlob` callback, recorded as the
request it answers. -/
structure Blob where
  request : EncodeJob
  deriving DecidableEq

/-- The string returned by `URL.createObjectURL(blob)`, recorded as the blob
it refers to. -/
structure ObjectUrl where
  blob : Blob
  deriving DecidableEq

/-- The source file an encode request goes back to: the file whose data URI
was decoded into the image that was drawn on the canvas. -/
def EncodeJob.origin (j : EncodeJob) : Option File :=
  match j.canvas.drawn with
  | some img =>
    match img.src with
    | some d => some d.file
    | none => none
  | none => none

/-- The source file an object URL goes back to: the origin of the request its
blob answers. -/
def ObjectUrl.origin (u : ObjectUrl) : Option File :=
  u.blob.request.origin

/-! ## Component state (App.jsx lines 5-10) -/

/-- The `useState` cells of `App`. -/
structure State where
  selectedFile : Option File
  preview : Option DataUrl
  targetFormat : String
  quality : Rat
  isConverting : Bool
  downloadUrl : Option ObjectUrl
  deriving DecidableEq

/-- The initial values passed to `useState` (lines 5-10). -/
def init : State :=
  { selectedFile := none, preview := none, targetFormat := "jpeg", quality := 0.9,
    isConverting := false, downloadUrl := none }

/-- A `CanvasRenderingContext2D`, the non-null result of
`canvas.getContext('2d')`. -/
inductive Context2d where
  | mk
  deriving DecidableEq, Repr

/-- An `Image` whose `src` has been assigned by `convertImage`, together with
what the closure `img.onload` of that call captured: the `targetFormat` and
`quality` of that render, and `ctx`, the result of `canvas.getContext('2d')`
at line 45, which is `none` when the host returned `null`. -/
structure DecodeJob where
  src : Option DataUrl
  targetFormat : String
  quality : Rat
  ctx : Option Context2d
  deriving DecidableEq

/-- The source file a decode goes back to: the file whose data URI was
assigned to `img.src`. -/
def DecodeJob.origin (j : DecodeJob) : Option File :=
  match j.src with
  | some d => some d.file
  | none => none

/-- The anchor element built by `handleDownload`. -/
structure Link where
  href : ObjectUrl
  download : String
  deriving DecidableEq

/-- Host calls made by the handlers. -/
inductive Effect where
  | alert (msg : String)
  | preventDefault
  | readAsDataURL (file : File)
  | setImgSrc (job : DecodeJob)
  | appendChild (link : Link)
  | click (link : Link)
  | removeChild (link : Link)
  | consoleError (msg : String)
  deriving DecidableEq

/-- JavaScript `s.startsWith(p)`. -/
def startsWith (s p : String) : Bool := p.data.isPrefixOf s.data

/-! ## Handlers -/

/-- Lines 21-36: `handleFileSelect`, applied to `e.target.files`. -/
def handleFileSelect (s : State) (files : List File) : State × List Effect :=
  match files.head? with
  | some file =>
    if startsWith file.type "image/" then
      ({ s with selectedFile := some file, downloadUrl := none }, [Effect.readAsDataURL file])
    else
      (s, [Effect.alert "Please select a valid image file"])
  | none => (s, [Effect.alert "Please select a valid image file"])

/-- Lines 96-109: `handleDrop`, applied to `e.dataTransfer.files`. -/
def handleDrop (s : State) (files : List File) : State × List Effect :=
  match files.head? with
  | some file =>
    if startsWith file.type "image/" then
      ({ s with selectedFile := some file, downloadUrl := none },
        [Effect.preventDefault, Effect.readAsDataURL file])
    else
      (s, [Effect.preventDefault])
  | none => (s, [Effect.preventDefault])

/-- Lines 29-31 and 104-106: `reader.onloadend`.  It fires on success and on
failure alike; `reader.result` is the data URI on success and `null` on
failure. -/
def onloadend (s : State) (result : Option DataUrl) : State :=
  { s with preview := result }

/-- The value of `reader.result` when the read of `file` ends. -/
def readerResult (file : File) (ok : Bool) : Option DataUrl :=
  if ok then some { file := file } else none

/-- Lines 38-83: `convertImage`.  `thrown` is the exception, if any, raised by
the host calls of the `try` body (`createElement`, `getContext`, `new Image`),
all of which precede the assignment `img.src = preview`.  `ctx` is what
`canvas.getContext('2d')` returned (line 45); it is not checked and is only
used later, inside `img.onload`. -/
def convertImage (s : State) (thrown : Option String) (ctx : Option Context2d) :
    State × List Effect :=
  match s.selectedFile with
  | none => (s, [])
  | some _ =>
    match thrown with
    | none =>
      ({ s with isConverting := true },
        [Effect.setImgSrc
          { src := s.preview, targetFormat := s.targetFormat, quality := s.quality, ctx := ctx }])
    | some err =>
      ({ s with isConverting := false },
        [Effect.consoleError err, Effect.alert "Error converting image"])

/-- Host: assigning `v` to the `width` or `height` attribute of a canvas.  The
attributes are `unsigned long` values reflected with a default (300 for the
width, 150 for the height): a value above 2147483647 is replaced by the
default. -/
def setCanvasDimension (v dflt : Nat) : Nat :=
  if v ≤ 2147483647 then v else dflt

/-- Lines 48-70: `img.onload`, run with the closure of `job` once the host has
decoded `img`.  It assigns the canvas width and height (lines 49-50), then
calls `ctx.drawImage(img, 0, 0)` (line 51), which throws a `TypeError` when
`ctx` is `null`; the handler is not inside the `try` of `convertImage`, so the
exception leaves it before `toBlob` is called.  Otherwise the result is the
`toBlob` call: the canvas it is made on, `mimeType` and `qualityOption`.  No
setter is called on either path, so the state is not touched. -/
def imgOnload (job : DecodeJob) (img : Image) : Except String EncodeJob :=
  let width := setCanvasDimension img.width 300
  let height := setCanvasDimension img.height 150
  match job.ctx with
  | none => Except.error "TypeError"
  | some _ =>
    let canvas : Canvas := { width := width, height := height, drawn := some img }
    let mimeType := "image/" ++ job.targetFormat
    let qualityOption : Option Rat :=
      if job.targetFormat = "jpeg" ∨ job.targetFormat = "webp" then some job.quality else none
    Except.ok { canvas := canvas, mimeType := mimeType, qualityOption := qualityOption }

/-- Lines 72-75: `img.onerror`. -/
def imgOnerror (s : State) : State × List Effect :=
  ({ s with isConverting := false }, [Effect.alert "Error loading image"])

/-- Host: `URL.createObjectURL(obj)`.  Its argument must be a `Blob` (or a
`MediaSource`); for `null` the call throws a `TypeError`. -/
def createObjectURL (blob : Option Blob) : Except String ObjectUrl :=
  match blob with
  | some b => Except.ok { blob := b }
  | none => Except.error "TypeError"

/-- Lines 62-66: the callback passed to `canvas.toBlob`.  An exception of
`createObjectURL` leaves the callback before either setter is called. -/
def toBlobCallback (s : State) (blob : Option Blob) : Except String State :=
  match createObjectURL blob with
  | Except.ok url => Except.ok { s with downloadUrl := some url, isConverting := false }
  | Except.error e => Except.error e

/-- Lines 85-94: `handleDownload`. -/
def handleDownload (s : State) : State × List Effect :=
  match s.downloadUrl with
  | some url =>
    let link : Link := { href := url, download := "converted-image." ++ s.targetFormat }
    (s, [Effect.appendChild link, Effect.click link, Effect.removeChild link])
  | none => (s, [])

/-- Host: assigning `value` on a file input.  The element must exist, and a
file input only accepts the empty string. -/
def setInputValue (current : Option String) (v : String) : Except String (Option String) :=
  match current with
  | none => Except.error "TypeError"
  | some _ => if v = "" then Except.ok (some v) else Except.error "InvalidStateError"

/-- Lines 115-122: `resetConverter`.  `fileInputRef` is `fileInputRef.current`:
the value of the mounted file input, or `none` when no input is mounted. -/
def resetConverter (s : State) (fileInputRef : Option String) :
    Except String (State × Option String) :=
  let s1 := { s with selectedFile := none, preview := none, downloadUrl := none }
  match fileInputRef with
  | some _ =>
    match setInputValue fileInputRef "" with
    | Except.ok r => Except.ok (s1, r)
    | Except.error e => Except.error e
  | none => Except.ok (s1, none)

/-- Lines 133 and 162: which branch of the card is rendered. -/
inductive View where
  | dropZone
  | previewSection
  deriving DecidableEq, Repr

/-- Line 133: the view is chosen by `!preview`. -/
def view (s : State) : View :=
  match s.preview with
  | none => View.dropZone
  | some _ => View.previewSection

/-- The files whose asynchronous read a handler started. -/
def readsStarted (es : List Effect) : List File :=
  es.filterMap fun e =>
    match e with
    | Effect.readAsDataURL f => some f
    | _ => none

/-- The alerts a handler raised. -/
def alertsRaised (es : List Effect) : List String :=
  es.filterMap fun e =>
    match e with
    | Effect.alert m => some m
    | _ => none

/-- The decodes a handler started. -/
def decodesStarted (es : List Effect) : List DecodeJob :=
  es.filterMap fun e =>
    match e with
    | Effect.setImgSrc j => some j
    | _ => none

/-- The links a handler clicked. -/
def clicks (es : List Effect) : List Link :=
  es.filterMap fun e =>
    match e with
    | Effect.click l => some l
    | _ => none

/-- Line 182: the `onChange` of the format selector. -/
def onFormatChange (s : State) (value : String) : State :=
  { s with targetFormat := value }

/-- Line 203: the `onChange` of the quality slider, applied to the parsed
number. -/
def onQualityChange (s : State) (value : Rat) : State :=
  { s with quality := value }

/-! ## The component with its pending host work -/

/-- The component state together with the asynchronous host work that has
been started and has not yet called back. -/
structure Sys where
  st : State
  reads : List File
  decodes : List DecodeJob
  encodes : List EncodeJob
  deriving DecidableEq

/-- The freshly mounted component. -/
def Sys.init : Sys :=
  { st := ImageConverter.init, reads := [], decodes := [], encodes := [] }

/-- User events and host callbacks.  The index of a callback names the
pending job it belongs to. -/
inductive Event where
  | fileSelect (files : List File)
  | drop (files : List File)
  | setTargetFormat (v : String)
  | setQuality (q : Rat)
  | convert (thrown : Option String) (ctx : Option Context2d)
  | download
  | reset
  | readEnd (i : Nat) (ok : Bool)
  | imgLoad (i : Nat) (width height : Nat)
  | imgError (i : Nat)
  | blobReady (i : Nat) (ok : Bool)

/-- Whether an event is an intake (file picker change or drop). -/
def Event.isIntake : Event → Bool
  | Event.fileSelect _ => true
  | Event.drop _ => true
  | _ => false

/-- The user events the rendered view admits.  The drop zone and the file
input exist only while `preview` is null (lines 133-161); the Reset and
Convert buttons exist only while `preview` is non-null and are disabled while
`isConverting` (lines 162, 213, 220).  Format change, quality change and
download are admitted in every state, which is at least what the view offers
(lines 179-205, 226-229).  Host callbacks are never blocked by the view. -/
def offered (s : Sys) : Event → Bool
  | Event.fileSelect _ => s.st.preview.isNone
  | Event.drop _ => s.st.preview.isNone
  | Event.convert _ _ => s.st.preview.isSome && !s.st.isConverting
  | Event.reset => s.st.preview.isSome && !s.st.isConverting
  | _ => true

/-- The view of `offered`, with the extra discipline that no intake happens
while an earlier file read is still pending. -/
def offeredSerial (s : Sys) (e : Event) : Bool :=
  offered s e && (!e.isIntake || s.reads.isEmpty)

/-- The view of `offered`, with the extra discipline that the format selector
is not moved to a different value while a conversion is in flight or a
conversion result is held. -/
def offeredStable (s : Sys) (e : Event) : Bool :=
  offered s e &&
    match e with
    | Event.setTargetFormat v =>
      decide (v = s.st.targetFormat) ||
        (s.decodes.isEmpty && s.encodes.isEmpty && s.st.downloadUrl.isNone)
    | _ => true

/-- One event, handled to completion.  `none` when the guard `g` does not
admit the event or the callback names no pending job. -/
def step (g : Sys → Event → Bool) (s : Sys) (e : Event) : Option Sys :=
  if g s e then
    match e with
    | Event.fileSelect files =>
      let r := handleFileSelect s.st files
      some { s with st := r.1, reads := s.reads ++ readsStarted r.2 }
    | Event.drop files =>
      let r := handleDrop s.st files
      some { s with st := r.1, reads := s.reads ++ readsStarted r.2 }
    | Event.setTargetFormat v => some { s with st := onFormatChange s.st v }
    | Event.setQuality q => some { s with st := onQualityChange s.st q }
    | Event.convert thrown ctx =>
      let r := convertImage s.st thrown ctx
      some { s with st := r.1, decodes := s.decodes ++ decodesStarted r.2 }
    | Event.download => some { s with st := (handleDownload s.st).1 }
    | Event.reset =>
      match resetConverter s.st none with
      | Except.ok r => some { s with st := r.1 }
      | Except.error _ => some s
    | Event.readEnd i ok =>
      match s.reads[i]? with
      | some file =>
        some { s with st := onloadend s.st (readerResult file ok), reads := s.reads.eraseIdx i }
      | none => none
    | Event.imgLoad i width height =>
      match s.decodes[i]? with
      | some job =>
        match imgOnload job { src := job.src, width := width, height := height } with
        | Except.ok call =>
          some { s with decodes := s.decodes.eraseIdx i, encodes := s.encodes ++ [call] }
        | Except.error _ => some { s with decodes := s.decodes.eraseIdx i }
      | none => none
    | Event.imgError i =>
      match s.decodes[i]? with
      | some _ => some { s with st := (imgOnerror s.st).1, decodes := s.decodes.eraseIdx i }
      | none => none
    | Event.blobReady i ok =>
      match s.encodes[i]? with
      | some job =>
        let blob : Option Blob := if ok then some { request := job } else none
        match toBlobCallback s.st blob with
        | Except.ok st1 => some { s with st := st1, encodes := s.encodes.eraseIdx i }
        | Except.error _ => some { s with encodes := s.encodes.eraseIdx i }
      | none => none
  else none

/-- A sequence of events, handled one after the other. -/
def run (g : Sys → Event → Bool) : Sys → List Event → Option Sys
  | s, [] => some s
  | s, e :: es =>
    match step g s e with
    | some s1 => run g s1 es
    | none => none

/-- States reachable from the freshly mounted component under guard `g`. -/
def Reachable (g : Sys → Event → Bool) (s : Sys) : Prop :=
  ∃ es, run g Sys.init es = some s

/-! ## Invariants -/

/-- What holds of every state reached under `offeredSerial`: at most one read
is pending, and then nothing is shown or held; at most one conversion is
pending, and then a preview is shown; the preview, every pending conversion
and the held result all go back to the selected file. -/
structure SerialInv (s : Sys) : Prop where
  hreads : s.reads = [] ∨
    ∃ f, s.reads = [f] ∧ s.st.selectedFile = some f ∧ s.st.preview = none ∧
      s.st.downloadUrl = none
  hprev : ∀ d, s.st.preview = some d → s.st.selectedFile = some d.file
  hjobs : (s.decodes = [] ∧ s.encodes = []) ∨
    (s.st.isConverting = true ∧ s.st.preview ≠ none ∧
      ((∃ j, s.decodes = [j] ∧ s.encodes = [] ∧ j.origin = s.st.selectedFile) ∨
       (∃ j, s.decodes = [] ∧ s.encodes = [j] ∧ j.origin = s.st.selectedFile)))
  hurl : ∀ u, s.st.downloadUrl = some u →
    s.st.preview ≠ none ∧ u.origin = s.st.selectedFile

/-- What holds of every state reached under `offeredStable`: every pending
conversion and the held result carry the current target format. -/
structure StableInv (s : Sys) : Prop where
  hdec : ∀ j ∈ s.decodes, j.targetFormat = s.st.targetFormat
  henc : ∀ j ∈ s.encodes, j.mimeType = "image/" ++ s.st.targetFormat
  hurl : ∀ u, s.st.downloadUrl = some u →
    u.blob.request.mimeType = "image/" ++ s.st.targetFormat

/-! ## Sample inputs -/

/-- A PNG file. -/
def catPng : File := { name := "cat.png", type := "image/png", bytes := [137, 80, 78, 71] }

/-- Another image file. -/
def dogJpg : File := { name := "dog.jpg", type := "image/jpeg", bytes := [255, 216, 255] }

/-- A text file. -/
def notesTxt : File := { name := "notes.txt", type := "text/plain", bytes := [104, 105] }

/-- State after `catPng` was taken in and its preview published. -/
def loaded : State :=
  { init with selectedFile := some catPng, preview := some { file := catPng } }

/-- The decoded `catPng`, 100 by 100. -/
def catImage : Image :=
  { src := some { file := catPng }, width := 100, height := 100 }

/-- An image whose reported width is above the range of the canvas width
attribute. -/
def wideImage : Image :=
  { src := some { file := catPng }, width := 2147483648, height := 100 }

/-- The `toBlob` call for `catImage` with the initial settings. -/
def catJpegCall : EncodeJob :=
  { canvas := { width := 100, height := 100, drawn := some catImage },
    mimeType := "image/jpeg", qualityOption := some 0.9 }

/-- The object URL of `catPng` encoded as JPEG at its 100 by 100 size. -/
def catJpegUrl : ObjectUrl :=
  { blob := { request := catJpegCall } }

/-- State after `catPng` was converted with the initial settings. -/
def converted : State :=
  { loaded with downloadUrl := some catJpegUrl }

/-- A file was taken in and its read has not ended. -/
def awaitingRead : State :=
  { init with selectedFile := some catPng }

/-- A preview is shown and no file is selected. -/
def previewOnly : State :=
  { init with preview := some { file := dogJpg } }

/-- Two drops in a row, the first read ends, the shown preview is converted. -/
def overlappingIntake : List Event :=
  [Event.drop [catPng], Event.drop [dogJpg], Event.readEnd 0 true,
   Event.convert none (some Context2d.mk), Event.imgLoad 0 100 100, Event.blobReady 0 true]

/-- One drop, its read ends, the preview is converted with the initial
settings. -/
def plainConversion : List Event :=
  [Event.drop [catPng], Event.readEnd 0 true, Event.convert none (some Context2d.mk),
   Event.imgLoad 0 100 100, Event.blobReady 0 true]

/-- The component after `plainConversion`. -/
def convertedSys : Sys :=
  { st := converted, reads := [], decodes := [], encodes := [] }

/-- Two drops in a row, the first read ends, Reset is pressed, the second read
ends. -/
def resetBeforeLateRead : List Event :=
  [Event.drop [catPng], Event.drop [dogJpg], Event.readEnd 0 true, Event.reset,
   Event.readEnd 0 true]

/-! ## Handler contracts -/

/-- C1 (as stated, refuted): the encoder is not called for every state and
image.  When `getContext('2d')` returned `null`, the decode started by
`convertImage` ends in a `TypeError` at `ctx.drawImage` and no `toBlob` call
is made, so the conversion stays pending with nothing in flight.  When the
image reports a width above 2147483647, the canvas width becomes the default
300 instead of that width. -/
theorem C1_null_context_counterexample :
    decodesStarted (convertImage loaded none none).2 =
      [{ src := loaded.preview, targetFormat := "jpeg", quality := 0.9, ctx := none }] ∧
    imgOnload { src := loaded.preview, targetFormat := "jpeg", quality := 0.9, ctx := none }
      catImage = Except.error "TypeError" ∧
    (run offered Sys.init [Event.drop [catPng], Event.readEnd 0 true, Event.convert none none,
        Event.imgLoad 0 100 100]).map
        (fun s => (s.st.isConverting, s.decodes.length, s.encodes.length)) =
      some (true, 0, 0) ∧
    imgOnload
      { src := loaded.preview, targetFormat := "jpeg", quality := 0.9, ctx := some Context2d.mk }
      wideImage =
      Except.ok { canvas := { width := 300, height := 100, drawn := some wideImage },
                  mimeType := "image/jpeg", qualityOption := some 0.9 } := by
  refine ⟨?_, rfl, ?_, rfl⟩
  · simp [convertImage, decodesStarted, loaded, init]
  · decide

/-- C1 (amended): for every state `s` and every decoded image whose width and
height are at most 2147483647, when `getContext('2d')` returned a context, the
decode that `convertImage` starts from `s` runs `img.onload` to its end: it
calls the encoder once, on a canvas that has exactly the width and height of
the image and the image drawn on it, with MIME type "image/" followed by the
target format of `s`, and with the quality of `s` as quality argument for
"jpeg" and "webp" and null for every other format. -/
theorem C1_onload_with_context_calls_encoder (s : State) (thrown : Option String)
    (ctx : Option Context2d) (job : DecodeJob) (img : Image)
    (hjob : job ∈ decodesStarted (convertImage s thrown ctx).2)
    (hctx : ctx ≠ none)
    (hw : img.width ≤ 2147483647) (hh : img.height ≤ 2147483647) :
    ∃ call, imgOnload job img = Except.ok call ∧
      call.canvas.width = img.width ∧
      call.canvas.height = img.height ∧
      call.canvas.drawn = some img ∧
      call.mimeType = "image/" ++ s.targetFormat ∧
      ((s.targetFormat = "jpeg" ∨ s.targetFormat = "webp") →
        call.qualityOption = some s.quality) ∧
      (¬ (s.targetFormat = "jpeg" ∨ s.targetFormat = "webp") →
        call.qualityOption = none) := by
  have hj : job =
      { src := s.preview, targetFormat := s.targetFormat, quality := s.quality, ctx := ctx } := by
    unfold convertImage at hjob
    cases hsel : s.selectedFile with
    | none => simp [hsel, decodesStarted] at hjob
    | some f =>
      cases thrown with
      | none =>
        simp [hsel, decodesStarted] at hjob
        exact hjob
      | some err => simp [hsel, decodesStarted] at hjob
  subst hj
  cases ctx with
  | none => exact absurd rfl hctx
  | some c =>
    refine ⟨_, rfl, ?_, ?_, rfl, rfl, ?_, ?_⟩
    · simp [setCanvasDimension, hw]
    · simp [setCanvasDimension, hh]
    · intro h
      simp only []
      rw [if_pos h]
    · intro h
      simp only []
      rw [if_neg h]

/-- Witness for C1: the 100 by 100 cat converted from the loaded state with a
drawing context. -/
theorem C1_onload_witness :
    ∃ call,
      imgOnload
        { src := loaded.preview, targetFormat := "jpeg", quality := 0.9,
          ctx := some Context2d.mk } catImage = Except.ok call ∧
      call.canvas.width = 100 ∧ call.canvas.height = 100 ∧ call.mimeType = "image/jpeg" :=
  have h := C1_onload_with_context_calls_encoder loaded none (some Context2d.mk)
    { src := loaded.preview, targetFormat := "jpeg", quality := 0.9, ctx := some Context2d.mk }
    catImage
    (by simp [convertImage, decodesStarted, loaded, init]) (by simp)
    (by decide) (by decide)
  h.elim fun call hc => ⟨call, hc.1, hc.2.1, hc.2.2.1, hc.2.2.2.2.1⟩

/-- C2: when the first file of an intake event has a media type starting with
"image/", both `handleFileSelect` and `handleDrop` set `selectedFile` to that
file, set `downloadUrl` to null, start exactly one read, of that file, and
leave `preview`, `targetFormat`, `quality` and `isConverting` as they were. -/
theorem C2_valid_intake (s : State) (files : List File) (file : File)
    (hfirst : files.head? = some file) (himg : startsWith file.type "image/" = true) :
    (handleFileSelect s files).1 = { s with selectedFile := some file, downloadUrl := none } ∧
    readsStarted (handleFileSelect s files).2 = [file] ∧
    (handleDrop s files).1 = { s with selectedFile := some file, downloadUrl := none } ∧
    readsStarted (handleDrop s files).2 = [file] ∧
    (handleFileSelect s files).1.preview = s.preview ∧
    (handleFileSelect s files).1.targetFormat = s.targetFormat ∧
    (handleFileSelect s files).1.quality = s.quality ∧
    (handleFileSelect s files).1.isConverting = s.isConverting ∧
    (handleDrop s files).1.preview = s.preview ∧
    (handleDrop s files).1.targetFormat = s.targetFormat ∧
    (handleDrop s files).1.quality = s.quality ∧
    (handleDrop s files).1.isConverting = s.isConverting := by
  simp [handleFileSelect, handleDrop, hfirst, himg, readsStarted]

/-- Witness for C2: another image taken in by a component that holds a
conversion result. -/
theorem C2_valid_intake_witness :
    (handleDrop converted [dogJpg, notesTxt]).1.selectedFile = some dogJpg ∧
    (handleDrop converted [dogJpg, notesTxt]).1.downloadUrl = none ∧
    readsStarted (handleFileSelect converted [dogJpg, notesTxt]).2 = [dogJpg] :=
  have h := C2_valid_intake converted [dogJpg, notesTxt] dogJpg rfl (by decide)
  ⟨by rw [h.2.2.1], by rw [h.2.2.1], h.2.1⟩

/-- C3: when the first file of an intake event is missing or its media type
does not start with "image/", both `handleFileSelect` and `handleDrop` return
the state unchanged in every field and start no file read. -/
theorem C3_invalid_intake (s : State) (files : List File)
    (hbad : files.head? = none ∨
      ∃ file, files.head? = some file ∧ startsWith file.type "image/" = false) :
    (handleFileSelect s files).1 = s ∧
    readsStarted (handleFileSelect s files).2 = [] ∧
    (handleDrop s files).1 = s ∧
    readsStarted (handleDrop s files).2 = [] := by
  rcases hbad with h | ⟨file, h, hty⟩
  · simp [handleFileSelect, handleDrop, h, readsStarted]
  · simp [handleFileSelect, handleDrop, h, hty, readsStarted]

/-- Witness for C3: a text file offered to a component that holds a preview. -/
theorem C3_invalid_intake_witness :
    (handleFileSelect loaded [notesTxt]).1 = loaded ∧
    readsStarted (handleFileSelect loaded [notesTxt]).2 = [] ∧
    (handleDrop loaded [notesTxt]).1 = loaded ∧
    readsStarted (handleDrop loaded [notesTxt]).2 = [] :=
  C3_invalid_intake loaded [notesTxt] (Or.inr ⟨notesTxt, rfl, by decide⟩)

/-- C4 (code): `handleDrop` raises no notification on any input, while
`handleFileSelect` raises one for every first file that is missing or not an
image; for the dropped text file `notesTxt` the only host call is
`preventDefault`. -/
theorem C4_drop_never_alerts (s : State) (files : List File) :
    alertsRaised (handleDrop s files).2 = [] ∧
    (handleDrop s [notesTxt]).2 = [Effect.preventDefault] ∧
    alertsRaised (handleFileSelect s [notesTxt]).2 = ["Please select a valid image file"] := by
  refine ⟨?_, ?_, ?_⟩
  · unfold handleDrop
    cases files.head? with
    | none => simp [alertsRaised]
    | some f =>
      by_cases h : startsWith f.type "image/" = true
      · simp [h, alertsRaised]
      · simp [h, alertsRaised]
  · have h : startsWith notesTxt.type "image/" = false := by decide
    simp [handleDrop, h]
  · have h : startsWith notesTxt.type "image/" = false := by decide
    simp [handleFileSelect, h, alertsRaised]

/-- C5 (as stated, refuted): `convertImage` is not gated on `preview`.  With a
file selected and no preview yet it sets `isConverting` and starts a decode of
the null preview.  With a preview shown and no file selected, a state the view
reaches through `resetBeforeLateRead` and in which the Convert button is
offered, it does nothing. -/
theorem C5_preview_gate_counterexample :
    awaitingRead.preview = none ∧
    (convertImage awaitingRead none (some Context2d.mk)).1.isConverting = true ∧
    decodesStarted (convertImage awaitingRead none (some Context2d.mk)).2 =
      [{ src := none, targetFormat := "jpeg", quality := 0.9, ctx := some Context2d.mk }] ∧
    run offered Sys.init resetBeforeLateRead =
      some { st := previewOnly, reads := [], decodes := [], encodes := [] } ∧
    offered { st := previewOnly, reads := [], decodes := [], encodes := [] }
      (Event.convert none (some Context2d.mk)) = true ∧
    previewOnly.preview ≠ none ∧
    convertImage previewOnly none (some Context2d.mk) = (previewOnly, []) := by
  refine ⟨rfl, rfl, ?_, rfl, rfl, ?_, rfl⟩
  · simp [convertImage, awaitingRead, decodesStarted, init]
  · simp [previewOnly]

/-- C5 (amended): `convertImage` requires `selectedFile`.  When it is null the
call changes no state field and starts no decode, whatever the host does; when
it is non-null, and the host set-up does not throw, the call sets
`isConverting` to true, changes no other field, and hands `preview` (null
included) to the host decoder together with the current target format and
quality and the context it obtained. -/
theorem C5_convert_gated_on_selectedFile (s : State) :
    (s.selectedFile = none → ∀ thrown ctx, convertImage s thrown ctx = (s, [])) ∧
    (s.selectedFile ≠ none → ∀ ctx,
      (convertImage s none ctx).1 = { s with isConverting := true } ∧
      (convertImage s none ctx).2 =
        [Effect.setImgSrc
          { src := s.preview, targetFormat := s.targetFormat, quality := s.quality,
            ctx := ctx }]) := by
  constructor
  · intro h thrown ctx
    simp [convertImage, h]
  · intro h ctx
    cases hsel : s.selectedFile with
    | none => exact absurd hsel h
    | some f => simp [convertImage, hsel]

/-- Witness for C5: converting from the loaded state. -/
theorem C5_convert_witness :
    (convertImage loaded none (some Context2d.mk)).1 = { loaded with isConverting := true } ∧
    convertImage init (some "boom") none = (init, []) :=
  ⟨((C5_convert_gated_on_selectedFile loaded).2 (by decide) (some Context2d.mk)).1,
   (C5_convert_gated_on_selectedFile init).1 rfl (some "boom") none⟩

/-- C6 (code): the decode-failure callback and the encode callback with a
payload both end with `isConverting = false`; the encode callback with a null
blob throws inside `createObjectURL` before `setIsConverting(false)` is
reached, so the pending conversion is consumed and the state, `isConverting`
included, stays as it was. -/
theorem C6_null_blob_leaves_converting (s : State) (b : Blob) (sys : Sys) (job : EncodeJob)
    (rest : List EncodeJob) :
    (imgOnerror s).1.isConverting = false ∧
    toBlobCallback s (some b) =
      Except.ok { s with downloadUrl := some { blob := b }, isConverting := false } ∧
    toBlobCallback s none = Except.error "TypeError" ∧
    step offered { sys with encodes := job :: rest } (Event.blobReady 0 false) =
      some { sys with encodes := rest } := by
  refine ⟨rfl, rfl, rfl, ?_⟩
  simp [step, offered, toBlobCallback, createObjectURL]

/-- C8: for every state and every file-input reference, `resetConverter`
returns normally with `selectedFile`, `preview` and `downloadUrl` null, so the
drop-zone view is chosen, and with `targetFormat`, `quality` and
`isConverting` as before. -/
theorem C8_reset (s : State) (fileInputRef : Option String) :
    ∃ r, resetConverter s fileInputRef = Except.ok r ∧
      r.1.selectedFile = none ∧ r.1.preview = none ∧ r.1.downloadUrl = none ∧
      view r.1 = View.dropZone ∧
      r.1.targetFormat = s.targetFormat ∧ r.1.quality = s.quality ∧
      r.1.isConverting = s.isConverting := by
  cases fileInputRef with
  | none => exact ⟨_, rfl, rfl, rfl, rfl, rfl, rfl, rfl, rfl⟩
  | some v => exact ⟨_, rfl, rfl, rfl, rfl, rfl, rfl, rfl, rfl⟩

/-- C9: `handleDownload` changes no state field; with `downloadUrl` null it
makes no host call; with `downloadUrl` non-null it appends, clicks once and
removes one link whose target is `downloadUrl` and whose file name is
"converted-image." followed by `targetFormat`. -/
theorem C9_download (s : State) :
    (handleDownload s).1 = s ∧
    (s.downloadUrl = none → (handleDownload s).2 = []) ∧
    (∀ url, s.downloadUrl = some url →
      clicks (handleDownload s).2 =
        [{ href := url, download := "converted-image." ++ s.targetFormat }] ∧
      (handleDownload s).2 =
        [Effect.appendChild { href := url, download := "converted-image." ++ s.targetFormat },
         Effect.click { href := url, download := "converted-image." ++ s.targetFormat },
         Effect.removeChild { href := url, download := "converted-image." ++ s.targetFormat }]) := by
  unfold handleDownload
  cases h : s.downloadUrl with
  | none => simp
  | some u => simp [clicks]

/-- Witness for C9: downloading the converted cat. -/
theorem C9_download_witness :
    clicks (handleDownload converted).2 =
      [{ href := catJpegUrl, download := "converted-image." ++ converted.targetFormat }] ∧
    (handleDownload loaded).2 = [] :=
  ⟨((C9_download converted).2.2 catJpegUrl rfl).1, (C9_download loaded).2.1 rfl⟩

/-! ## Reachable states -/

/-- The `toBlob` call made by `img.onload` keeps the origin of the decode. -/
theorem origin_imgOnload (job : DecodeJob) (w h : Nat) (call : EncodeJob)
    (hcall : imgOnload job { src := job.src, width := w, height := h } = Except.ok call) :
    call.origin = job.origin := by
  unfold imgOnload at hcall
  cases hc : job.ctx with
  | none => simp [hc] at hcall
  | some c =>
    simp only [hc, Except.ok.injEq] at hcall
    subst hcall
    cases hs : job.src <;> simp [EncodeJob.origin, DecodeJob.origin, hs]

/-- The `toBlob` call made by `img.onload` asks for the format of the decode. -/
theorem mimeType_imgOnload (job : DecodeJob) (img : Image) (call : EncodeJob)
    (hcall : imgOnload job img = Except.ok call) :
    call.mimeType = "image/" ++ job.targetFormat := by
  unfold imgOnload at hcall
  cases hc : job.ctx with
  | none => simp [hc] at hcall
  | some c =>
    simp only [hc, Except.ok.injEq] at hcall
    subst hcall
    rfl

/-- An invariant that holds initially and is kept by every step holds after
every run. -/
theorem run_preserves (g : Sys → Event → Bool) (P : Sys → Prop)
    (hstep : ∀ s e s1, P s → step g s e = some s1 → P s1) :
    ∀ (es : List Event) (s s1 : Sys), P s → run g s es = some s1 → P s1 := by
  intro es
  induction es with
  | nil =>
    intro s s1 hP h
    simp only [run, Option.some.injEq] at h
    exact h ▸ hP
  | cons e es ih =>
    intro s s1 hP h
    simp only [run] at h
    cases hs : step g s e with
    | none => simp [hs] at h
    | some s2 =>
      simp only [hs] at h
      exact ih s2 s1 (hstep s e s2 hP hs) h

/-- The freshly mounted component satisfies the serial invariant. -/
theorem serialInv_init : SerialInv Sys.init :=
  { hreads := Or.inl rfl
    hprev := by intro d h; simp [Sys.init, init] at h
    hjobs := Or.inl ⟨rfl, rfl⟩
    hurl := by intro u h; simp [Sys.init, init] at h }

/-- The two outcomes of `handleFileSelect`: nothing changes and no read
starts, or a file is selected, the result is cleared and its read starts. -/
theorem handleFileSelect_cases (s : State) (files : List File) :
    ((handleFileSelect s files).1 = s ∧ readsStarted (handleFileSelect s files).2 = []) ∨
    ∃ file, (handleFileSelect s files).1 = { s with selectedFile := some file, downloadUrl := none } ∧
      readsStarted (handleFileSelect s files).2 = [file] := by
  unfold handleFileSelect
  cases files.head? with
  | none => exact Or.inl ⟨rfl, rfl⟩
  | some f =>
    by_cases hty : startsWith f.type "image/" = true
    · exact Or.inr ⟨f, by simp [hty], by simp [hty, readsStarted]⟩
    · exact Or.inl ⟨by simp [hty], by simp [hty, readsStarted]⟩

/-- The two outcomes of `handleDrop`: nothing changes and no read starts, or a
file is selected, the result is cleared and its read starts. -/
theorem handleDrop_cases (s : State) (files : List File) :
    ((handleDrop s files).1 = s ∧ readsStarted (handleDrop s files).2 = []) ∨
    ∃ file, (handleDrop s files).1 = { s with selectedFile := some file, downloadUrl := none } ∧
      readsStarted (handleDrop s files).2 = [file] := by
  unfold handleDrop
  cases files.head? with
  | none => exact Or.inl ⟨rfl, rfl⟩
  | some f =>
    by_cases hty : startsWith f.type "image/" = true
    · exact Or.inr ⟨f, by simp [hty], by simp [hty, readsStarted]⟩
    · exact Or.inl ⟨by simp [hty], by simp [hty, readsStarted]⟩

/-- An intake made while nothing is previewed and no read is pending keeps the
serial invariant. -/
theorem serialInv_intake (s : Sys) (r : State × List Effect) (hinv : SerialInv s)
    (hp : s.st.preview = none) (hr : s.reads = [])
    (hcases : (r.1 = s.st ∧ readsStarted r.2 = []) ∨
      ∃ file, r.1 = { s.st with selectedFile := some file, downloadUrl := none } ∧
        readsStarted r.2 = [file]) :
    SerialInv { s with st := r.1, reads := s.reads ++ readsStarted r.2 } := by
  obtain ⟨hreads, hprev, hjobs, hurl⟩ := hinv
  rcases hcases with ⟨h1, h2⟩ | ⟨file, h1, h2⟩
  · rw [h1, h2, List.append_nil]
    exact ⟨hreads, hprev, hjobs, hurl⟩
  · rw [h1, h2, hr]
    refine ⟨Or.inr ⟨file, rfl, rfl, hp, rfl⟩, ?_, ?_, ?_⟩
    · intro d hd
      simp [hp] at hd
    · rcases hjobs with hj | ⟨_, hne, _⟩
      · exact Or.inl hj
      · exact absurd hp hne
    · intro u hu
      simp at hu

/-- Every step admitted by `offeredSerial` keeps the serial invariant. -/
theorem serialInv_step (s : Sys) (e : Event) (s1 : Sys) (hinv : SerialInv s)
    (h : step offeredSerial s e = some s1) : SerialInv s1 := by
  obtain ⟨⟨sel, prev, fmt, q, conv, url⟩, reads, decodes, encodes⟩ := s
  obtain ⟨hreads, hprev, hjobs, hurl⟩ := hinv
  simp only at hreads hprev hjobs hurl
  cases e with
  | fileSelect files =>
    simp only [step, offeredSerial, offered, Event.isIntake] at h
    split at h
    · rename_i hg
      simp at hg
      simp only [Option.some.injEq] at h
      subst h
      exact serialInv_intake ⟨⟨sel, prev, fmt, q, conv, url⟩, reads, decodes, encodes⟩ _
        ⟨hreads, hprev, hjobs, hurl⟩ hg.1 hg.2
        (handleFileSelect_cases _ files)
    · simp at h
  | drop files =>
    simp only [step, offeredSerial, offered, Event.isIntake] at h
    split at h
    · rename_i hg
      simp at hg
      simp only [Option.some.injEq] at h
      subst h
      exact serialInv_intake ⟨⟨sel, prev, fmt, q, conv, url⟩, reads, decodes, encodes⟩ _
        ⟨hreads, hprev, hjobs, hurl⟩ hg.1 hg.2
        (handleDrop_cases _ files)
    · simp at h
  | convert thrown ctx =>
    simp only [step, offeredSerial, offered, Event.isIntake] at h
    split at h
    · rename_i hg
      simp at hg
      obtain ⟨hps, hc⟩ := hg
      subst hc
      simp only [Option.some.injEq] at h
      subst h
      have hde : decodes = [] ∧ encodes = [] := by
        rcases hjobs with hj | ⟨hc, _⟩
        · exact hj
        · simp at hc
      obtain ⟨hd0, he0⟩ := hde
      subst hd0
      subst he0
      cases prev with
      | none => simp at hps
      | some d =>
        have hsel := hprev d rfl
        subst hsel
        cases thrown with
        | none =>
          refine ⟨?_, ?_, ?_, ?_⟩
          · simpa [convertImage] using hreads
          · intro d1 hd1
            simp only [convertImage] at hd1 ⊢
            exact hprev d1 hd1
          · exact Or.inr ⟨rfl, by simp [convertImage],
              Or.inl ⟨{ src := some d, targetFormat := fmt, quality := q, ctx := ctx },
                rfl, rfl, rfl⟩⟩
          · intro u hu
            simp only [convertImage] at hu ⊢
            exact hurl u hu
        | some err =>
          refine ⟨?_, ?_, ?_, ?_⟩
          · simpa [convertImage] using hreads
          · intro d1 hd1
            simp only [convertImage] at hd1 ⊢
            exact hprev d1 hd1
          · exact Or.inl ⟨by simp [convertImage, decodesStarted], rfl⟩
          · intro u hu
            simp only [convertImage] at hu ⊢
            exact hurl u hu
    · simp at h
  | setTargetFormat v =>
    simp [step, offeredSerial, offered, Event.isIntake, onFormatChange] at h
    subst h
    exact ⟨hreads, hprev, hjobs, hurl⟩
  | setQuality v =>
    simp [step, offeredSerial, offered, Event.isIntake, onQualityChange] at h
    subst h
    exact ⟨hreads, hprev, hjobs, hurl⟩
  | download =>
    have hd : (handleDownload ⟨sel, prev, fmt, q, conv, url⟩).1 = ⟨sel, prev, fmt, q, conv, url⟩ := by
      unfold handleDownload
      cases url <;> rfl
    simp [step, offeredSerial, offered, Event.isIntake, hd] at h
    subst h
    exact ⟨hreads, hprev, hjobs, hurl⟩
  | reset =>
    simp [step, offeredSerial, offered, Event.isIntake, resetConverter] at h
    obtain ⟨⟨hp, hc⟩, h⟩ := h
    subst h
    subst hc
    refine ⟨?_, ?_, ?_, ?_⟩
    · rcases hreads with hr | ⟨f, _, _, hpn, _⟩
      · exact Or.inl hr
      · simp [hpn] at hp
    · intro d hd
      simp at hd
    · rcases hjobs with hj | ⟨hc, _⟩
      · exact Or.inl hj
      · simp at hc
    · intro u hu
      simp at hu
  | readEnd i ok =>
    simp only [step, offeredSerial, offered, Event.isIntake] at h
    rcases hreads with hr | ⟨f, hr, hsel, hpn, hun⟩
    · subst hr
      simp at h
    · subst hr
      subst hsel
      subst hpn
      subst hun
      cases i with
      | succ n => simp at h
      | zero =>
        simp at h
        subst h
        have hj0 : decodes = [] ∧ encodes = [] := by
          rcases hjobs with hj | ⟨_, hne, _⟩
          · exact hj
          · exact absurd rfl hne
        refine ⟨Or.inl rfl, ?_, Or.inl hj0, ?_⟩
        · intro d hd
          cases ok with
          | false => simp [onloadend, readerResult] at hd
          | true =>
            simp [onloadend, readerResult] at hd
            subst hd
            rfl
        · intro u hu
          simp [onloadend] at hu
  | imgLoad i w ht =>
    simp only [step, offeredSerial, offered, Event.isIntake] at h
    rcases hjobs with ⟨hd0, _⟩ | ⟨hc, hne, ⟨j, hd1, he1, hor⟩ | ⟨j, hd1, _, _⟩⟩
    · subst hd0
      simp at h
    · subst hd1
      subst he1
      cases i with
      | succ n => simp at h
      | zero =>
        simp only [List.getElem?_cons_zero, List.eraseIdx_cons_zero, List.nil_append,
          if_true] at h
        cases hio : imgOnload j { src := j.src, width := w, height := ht } with
        | error err =>
          simp [hio] at h
          subst h
          exact ⟨hreads, hprev, Or.inl ⟨rfl, rfl⟩, hurl⟩
        | ok call =>
          simp [hio] at h
          subst h
          refine ⟨hreads, hprev, Or.inr ⟨hc, hne, Or.inr ⟨call, rfl, rfl, ?_⟩⟩, hurl⟩
          rw [origin_imgOnload j w ht call hio]
          exact hor
    · subst hd1
      simp at h
  | imgError i =>
    simp only [step, offeredSerial, offered, Event.isIntake] at h
    rcases hjobs with ⟨hd0, _⟩ | ⟨hc, hne, ⟨j, hd1, he1, hor⟩ | ⟨j, hd1, _, _⟩⟩
    · subst hd0
      simp at h
    · subst hd1
      subst he1
      cases i with
      | succ n => simp at h
      | zero =>
        simp at h
        subst h
        exact ⟨hreads, hprev, Or.inl ⟨rfl, rfl⟩, hurl⟩
    · subst hd1
      simp at h
  | blobReady i ok =>
    simp only [step, offeredSerial, offered, Event.isIntake] at h
    rcases hjobs with ⟨_, he0⟩ | ⟨hc, hne, ⟨j, _, he1, _⟩ | ⟨j, hd1, he1, hor⟩⟩
    · subst he0
      simp at h
    · subst he1
      simp at h
    · subst hd1
      subst he1
      cases i with
      | succ n => simp at h
      | zero =>
        cases ok with
        | false =>
          simp [toBlobCallback, createObjectURL] at h
          subst h
          exact ⟨hreads, hprev, Or.inl ⟨rfl, rfl⟩, hurl⟩
        | true =>
          simp [toBlobCallback, createObjectURL] at h
          subst h
          refine ⟨?_, hprev, Or.inl ⟨rfl, rfl⟩, ?_⟩
          · rcases hreads with hr | ⟨f, _, _, hpn, _⟩
            · exact Or.inl hr
            · exact absurd hpn hne
          · intro u hu
            simp at hu
            subst hu
            exact ⟨hne, hor⟩

/-- C7 (as stated, refuted): two files are dropped one after the other while
the drop zone is shown; the read of the first ends and its preview is
converted.  The result held goes back to the first file while `selectedFile`
is the second.  If the read of the second file then fails, `preview` is null
while the result is still held. -/
theorem C7_overlapping_intake_counterexample :
    (run offered Sys.init overlappingIntake).map
        (fun s => (s.st.selectedFile, s.st.downloadUrl.bind ObjectUrl.origin)) =
      some (some dogJpg, some catPng) ∧
    (run offered Sys.init (overlappingIntake ++ [Event.readEnd 0 false])).map
        (fun s => (s.st.preview, s.st.downloadUrl.isSome)) =
      some (none, true) := by
  constructor <;> decide

/-- C7 (amended): in every state reachable by the events the view admits and
the host callbacks, provided no intake happens while an earlier file read is
still pending, a non-null `downloadUrl` implies that `preview` is non-null and
that the result goes back to the file held in `selectedFile`. -/
theorem C7_serial_result_matches_selectedFile (s : Sys) (hreach : Reachable offeredSerial s)
    (u : ObjectUrl) (hu : s.st.downloadUrl = some u) :
    s.st.preview ≠ none ∧ ∃ f, s.st.selectedFile = some f ∧ u.origin = some f := by
  obtain ⟨es, hrun⟩ := hreach
  have hinv : SerialInv s :=
    run_preserves offeredSerial SerialInv serialInv_step es Sys.init s serialInv_init hrun
  obtain ⟨hne, hor⟩ := hinv.hurl u hu
  refine ⟨hne, ?_⟩
  cases hp : s.st.preview with
  | none => exact absurd hp hne
  | some d => exact ⟨d.file, hinv.hprev d hp, by rw [hor, hinv.hprev d hp]⟩

/-- Witness for C7: the state after one plain conversion. -/
theorem C7_serial_witness :
    convertedSys.st.preview ≠ none ∧
    ∃ f, convertedSys.st.selectedFile = some f ∧ catJpegUrl.origin = some f :=
  C7_serial_result_matches_selectedFile convertedSys ⟨plainConversion, rfl⟩ catJpegUrl rfl

/-- The freshly mounted component satisfies the stable-format invariant. -/
theorem stableInv_init : StableInv Sys.init :=
  { hdec := by intro j hj; simp [Sys.init] at hj
    henc := by intro j hj; simp [Sys.init] at hj
    hurl := by intro u h; simp [Sys.init, init] at h }

/-- Neither intake handler touches the target format, and the result they
leave is the old one or none. -/
theorem intake_keeps_format (s : State) (r : State × List Effect)
    (hcases : (r.1 = s ∧ readsStarted r.2 = []) ∨
      ∃ file, r.1 = { s with selectedFile := some file, downloadUrl := none } ∧
        readsStarted r.2 = [file]) :
    r.1.targetFormat = s.targetFormat ∧ ∀ u, r.1.downloadUrl = some u → s.downloadUrl = some u := by
  rcases hcases with ⟨h1, _⟩ | ⟨file, h1, _⟩
  · rw [h1]
    exact ⟨rfl, fun _ h => h⟩
  · rw [h1]
    exact ⟨rfl, fun _ h => by simp at h⟩

/-- Every step admitted by `offeredStable` keeps the stable-format
invariant. -/
theorem stableInv_step (s : Sys) (e : Event) (s1 : Sys) (hinv : StableInv s)
    (h : step offeredStable s e = some s1) : StableInv s1 := by
  obtain ⟨hdec, henc, hurl⟩ := hinv
  unfold step at h
  split at h
  swap
  · simp at h
  rename_i hg
  cases e with
  | fileSelect files =>
    simp only [Option.some.injEq] at h
    subst h
    obtain ⟨hf, hu⟩ := intake_keeps_format s.st _ (handleFileSelect_cases s.st files)
    exact ⟨fun j hj => by rw [hf]; exact hdec j hj, fun j hj => by rw [hf]; exact henc j hj,
      fun u h1 => by rw [hf]; exact hurl u (hu u h1)⟩
  | drop files =>
    simp only [Option.some.injEq] at h
    subst h
    obtain ⟨hf, hu⟩ := intake_keeps_format s.st _ (handleDrop_cases s.st files)
    exact ⟨fun j hj => by rw [hf]; exact hdec j hj, fun j hj => by rw [hf]; exact henc j hj,
      fun u h1 => by rw [hf]; exact hurl u (hu u h1)⟩
  | setTargetFormat v =>
    simp only [Option.some.injEq] at h
    subst h
    simp [offeredStable, offered] at hg
    rcases hg with hv | ⟨⟨hd, he⟩, hn⟩
    · subst hv
      exact ⟨hdec, henc, hurl⟩
    · refine ⟨?_, ?_, ?_⟩
      · intro j hj
        simp [hd] at hj
      · intro j hj
        simp [he] at hj
      · intro u h1
        simp [onFormatChange, hn] at h1
  | setQuality v =>
    simp only [Option.some.injEq] at h
    subst h
    exact ⟨hdec, henc, hurl⟩
  | convert thrown ctx =>
    simp only [Option.some.injEq] at h
    subst h
    unfold convertImage
    cases hsel : s.st.selectedFile with
    | none =>
      simp only [decodesStarted, List.filterMap_nil, List.append_nil]
      exact ⟨hdec, henc, hurl⟩
    | some f =>
      cases thrown with
      | none =>
        refine ⟨?_, henc, hurl⟩
        intro j hj
        simp [decodesStarted] at hj
        rcases hj with hj | hj
        · exact hdec j hj
        · subst hj
          rfl
      | some err =>
        refine ⟨?_, henc, hurl⟩
        intro j hj
        simp [decodesStarted] at hj
        exact hdec j hj
  | download =>
    simp only [Option.some.injEq] at h
    subst h
    have hd : (handleDownload s.st).1 = s.st := by
      unfold handleDownload
      cases s.st.downloadUrl <;> rfl
    simp only [hd]
    exact ⟨hdec, henc, hurl⟩
  | reset =>
    simp only [resetConverter, Option.some.injEq] at h
    subst h
    exact ⟨hdec, henc, fun u h1 => by simp at h1⟩
  | readEnd i ok =>
    cases hr : s.reads[i]? with
    | none => simp [hr] at h
    | some f =>
      simp only [hr, Option.some.injEq] at h
      subst h
      exact ⟨hdec, henc, hurl⟩
  | imgLoad i w ht =>
    cases hr : s.decodes[i]? with
    | none => simp [hr] at h
    | some job =>
      simp only [hr] at h
      cases hio : imgOnload job { src := job.src, width := w, height := ht } with
      | error err =>
        simp only [hio, Option.some.injEq] at h
        subst h
        exact ⟨fun j hj => hdec j (List.mem_of_mem_eraseIdx hj), henc, hurl⟩
      | ok call =>
        simp only [hio, Option.some.injEq] at h
        subst h
        refine ⟨fun j hj => hdec j (List.mem_of_mem_eraseIdx hj), ?_, hurl⟩
        intro j hj
        simp only [List.mem_append, List.mem_singleton] at hj
        rcases hj with hj | hj
        · exact henc j hj
        · subst hj
          rw [mimeType_imgOnload job _ j hio, hdec job (List.getElem?_mem hr)]
  | imgError i =>
    cases hr : s.decodes[i]? with
    | none => simp [hr] at h
    | some job =>
      simp only [hr, Option.some.injEq] at h
      subst h
      exact ⟨fun j hj => hdec j (List.mem_of_mem_eraseIdx hj), henc, hurl⟩
  | blobReady i ok =>
    cases hr : s.encodes[i]? with
    | none => simp [hr] at h
    | some job =>
      cases ok with
      | false =>
        simp [hr, toBlobCallback, createObjectURL] at h
        subst h
        exact ⟨hdec, fun j hj => henc j (List.mem_of_mem_eraseIdx hj), hurl⟩
      | true =>
        simp [hr, toBlobCallback, createObjectURL] at h
        subst h
        refine ⟨hdec, fun j hj => henc j (List.mem_of_mem_eraseIdx hj), ?_⟩
        intro u h1
        simp at h1
        subst h1
        exact henc job (List.getElem?_mem hr)

/-- C10 (as stated, refuted): the cat is converted as JPEG and the format
selector is then moved to "png".  The held result was encoded with MIME type
"image/jpeg", and `handleDownload` names the file "converted-image.png". -/
theorem C10_format_changed_after_conversion_counterexample :
    (run offered Sys.init (plainConversion ++ [Event.setTargetFormat "png"])).map
        (fun s => (s.st.downloadUrl.map (fun u => u.blob.request.mimeType),
          (clicks (handleDownload s.st).2).map Link.download)) =
      some (some "image/jpeg", ["converted-image.png"]) := by
  decide

/-- C10 (amended): in every state reachable without moving the format selector
to a different value while a conversion is in flight or a result is held, the
file name `handleDownload` uses for a held result is "converted-image."
followed by the very format that follows "image/" in the MIME type the result
was encoded with. -/
theorem C10_stable_extension_matches_encoding (s : Sys) (hreach : Reachable offeredStable s)
    (u : ObjectUrl) (hu : s.st.downloadUrl = some u) :
    ∃ f, u.blob.request.mimeType = "image/" ++ f ∧
      clicks (handleDownload s.st).2 = [{ href := u, download := "converted-image." ++ f }] := by
  obtain ⟨es, hrun⟩ := hreach
  have hinv : StableInv s :=
    run_preserves offeredStable StableInv stableInv_step es Sys.init s stableInv_init hrun
  refine ⟨s.st.targetFormat, hinv.hurl u hu, ?_⟩
  simp [handleDownload, hu, clicks]

/-- Witness for C10: the state after one plain conversion. -/
theorem C10_stable_witness :
    ∃ f, catJpegUrl.blob.request.mimeType = "image/" ++ f ∧
      clicks (handleDownload convertedSys.st).2 =
        [{ href := catJpegUrl, download := "converted-image." ++ f }] :=
  C10_stable_extension_matches_encoding convertedSys ⟨plainConversion, rfl⟩ catJpegUrl rfl

end ImageConverter
